import Mathlib

/-!
Verification development for the paper-trading engine of the
stock-recommendation repository.

The definitions below are a shallow embedding of
`backend/backtesting/paper_trading.py` (class `PaperTradingEngine`),
`backend/backtesting/models.py` (the data model) and the profit-factor
computations of `backend/backtesting/analyzer.py` and
`backend/enhanced_backtesting.py`.

Modelling conventions:
* Python floats are embedded as exact rationals (`ℚ`); Python ints as `Int`.
* A Python dict keyed by ticker is an association list `List (String × Position)`
  (insertion order preserved, as in Python dicts).
* Optional dict keys read through `.get(k, default)` become `Option` fields read
  through `Option.getD`.
* `datetime` fields carry no arithmetic in the embedded code paths and are
  omitted from the records.
* Methods that only talk to SQLite (`_save_trade`, `_update_portfolio_stats`)
  do not touch `portfolio.cash`/`portfolio.positions` and are omitted; the
  DB-derived statistics fields of `Portfolio` (win_rate, sharpe_ratio, ...) are
  likewise omitted.  `_save_portfolio_snapshot` reads the snapshot table, so it
  is embedded as a function of an explicit history list (most recent first,
  matching its `ORDER BY date DESC` reads).
* A Python `raise ValueError(msg)` becomes an `Except.error` result; the
  mutating methods return the portfolio state as of the raise, so that
  atomicity is a provable property rather than a modelling artifact.
* Division by zero: Lean's `ℚ` yields `q / 0 = 0` where Python would raise
  `ZeroDivisionError`; no theorem below depends on a division-by-zero path.
-/

/-- `TradingAction` from `backtesting/models.py`. -/
inductive TradingAction where
  | BUY
  | SELL
  | HOLD
deriving Repr, DecidableEq

/-- One position dict of `portfolio.positions` in `paper_trading.py`:
keys `quantity`, `avg_price`, `total_cost` always present once created,
`current_price` and `unrealized_pnl` read via `.get` (hence `Option`). -/
structure Position where
  quantity : Int
  avg_price : ℚ
  total_cost : ℚ
  current_price : Option ℚ := none
  unrealized_pnl : Option ℚ := none
deriving Repr, DecidableEq

/-- The fields of the `Portfolio` model that the embedded code paths read or
write (`cash`, `positions`, `total_value`, `initial_capital`, `total_return`,
`total_return_pct`, `max_drawdown`).  The remaining statistics fields are
recomputed from the database by `_update_portfolio_stats` and play no role in
the claims. -/
structure Portfolio where
  cash : ℚ
  positions : List (String × Position)
  total_value : ℚ
  initial_capital : ℚ
  total_return : ℚ := 0
  total_return_pct : ℚ := 0
  max_drawdown : ℚ := 0
deriving Repr, DecidableEq

/-- `BacktestConfig` from `backtesting/models.py` with its source defaults
(the date/rebalancing fields are unused by the embedded code paths).  Note that
the source model has NO probability-threshold fields. -/
structure BacktestConfig where
  initial_capital : ℚ := 10000000
  commission_rate : ℚ := 15 / 100000
  tax_rate : ℚ := 23 / 10000
  max_position_size : ℚ := 2 / 10
  stop_loss : ℚ := 5 / 100
  take_profit : ℚ := 10 / 100
  min_trade_value : ℚ := 100000
  confidence_threshold : ℚ := 6 / 10
deriving Repr

/-- The prediction dict handed to `process_prediction`: the code reads
`prediction['probability']`, `prediction.get('confidence', 0.5)` and
`prediction.get('id')`. -/
structure PredictionInput where
  id : Option Int := none
  probability : ℚ
  confidence : Option ℚ := none
deriving Repr

/-- `PaperTrade` from `backtesting/models.py`, restricted to the fields
`_execute_trade` fills (dates omitted). -/
structure PaperTrade where
  prediction_id : Option Int
  ticker : String
  action : TradingAction
  price : ℚ
  quantity : Int
  total_value : ℚ
  position_before : Int
  position_after : Int
  cash_before : ℚ
  cash_after : ℚ
  realized_pnl : ℚ
  commission : ℚ
deriving Repr, DecidableEq

/-- One row of the `portfolio_history` table written by
`_save_portfolio_snapshot` (date column omitted). -/
structure PortfolioSnapshot where
  cash : ℚ
  total_value : ℚ
  daily_return : ℚ
  cumulative_return : ℚ
  drawdown : ℚ
deriving Repr, DecidableEq

/-- `self.portfolio.positions.get(ticker)` on the association list. -/
def lookup_pos (ps : List (String × Position)) (t : String) : Option Position :=
  (ps.find? (fun x => x.1 == t)).map (fun x => x.2)

/-- `self.portfolio.positions.get(ticker, {}).get('quantity', 0)`. -/
def pos_qty (ps : List (String × Position)) (t : String) : Int :=
  ((lookup_pos ps t).map (fun x => x.quantity)).getD 0

/-- Dict assignment `positions[ticker] = pos`: replace in place if the key
exists, else append (Python dicts preserve insertion order). -/
def set_pos (ps : List (String × Position)) (t : String) (pos : Position) :
    List (String × Position) :=
  if (lookup_pos ps t).isSome then
    ps.map (fun x => if x.1 == t then (t, pos) else x)
  else
    ps ++ [(t, pos)]

/-- `del positions[ticker]`. -/
def del_pos (ps : List (String × Position)) (t : String) :
    List (String × Position) :=
  ps.filter (fun x => !(x.1 == t))

/-- Error strings of the two `raise ValueError(...)` sites in
`_execute_trade`, plus the `KeyError` Python would raise on
`positions[ticker]` for a missing key. -/
def insufficient_cash_msg : String := "Insufficient cash"

def insufficient_shares_msg : String := "Insufficient shares"

def key_error_msg : String := "KeyError"

/-- The construction of `self.portfolio` in `PaperTradingEngine.__init__`. -/
def init_portfolio (cfg : BacktestConfig) : Portfolio :=
  { cash := cfg.initial_capital
    positions := []
    total_value := cfg.initial_capital
    initial_capital := cfg.initial_capital
    total_return := 0
    total_return_pct := 0
    max_drawdown := 0 }

/-- `PaperTradingEngine._execute_trade` (paper_trading.py lines 203-297).
The returned portfolio is the engine state after the call: unchanged when a
`ValueError` is raised (the source raises before any mutation), mutated on
success.  The `else` branch covers every non-BUY action exactly as the
source's `else:  # SELL` does. -/
def execute_trade (cfg : BacktestConfig) (p : Portfolio) (ticker : String)
    (action : TradingAction) (price : ℚ) (quantity : Int)
    (prediction_id : Option Int := none) :
    Portfolio × Except String PaperTrade :=
  let position_before : Int := pos_qty p.positions ticker
  let cash_before : ℚ := p.cash
  let trade_value : ℚ := price * (quantity : ℚ)
  let commission : ℚ := trade_value * cfg.commission_rate
  if action = TradingAction.BUY then
    let total_cost := trade_value + commission
    if p.cash < total_cost then
      (p, Except.error insufficient_cash_msg)
    else
      -- the source inserts a zeroed dict for a new ticker, then mutates it
      let pos0 := (lookup_pos p.positions ticker).getD
        { quantity := 0, avg_price := 0, total_cost := 0 }
      let new_quantity := pos0.quantity + quantity
      let new_total_cost := pos0.total_cost + trade_value
      let pos' : Position :=
        { quantity := new_quantity
          avg_price := new_total_cost / (new_quantity : ℚ)
          total_cost := new_total_cost
          current_price := some price
          unrealized_pnl := pos0.unrealized_pnl }
      let p' : Portfolio :=
        { p with cash := p.cash - total_cost
                 positions := set_pos p.positions ticker pos' }
      (p', Except.ok
        { prediction_id := prediction_id
          ticker := ticker
          action := action
          price := price
          quantity := quantity
          total_value := trade_value
          position_before := position_before
          position_after := pos_qty p'.positions ticker
          cash_before := cash_before
          cash_after := p'.cash
          realized_pnl := 0
          commission := commission })
  else
    if position_before < quantity then
      (p, Except.error insufficient_shares_msg)
    else
      match lookup_pos p.positions ticker with
      | none => (p, Except.error key_error_msg)
      | some pos =>
        let avg_price := pos.avg_price
        let realized_pnl0 := (price - avg_price) * (quantity : ℚ) - commission
        let tax : ℚ := if 0 < realized_pnl0 then trade_value * cfg.tax_rate else 0
        let realized_pnl := realized_pnl0 - tax
        let commission' := commission + tax
        let q' := pos.quantity - quantity
        let p' : Portfolio :=
          { p with cash := p.cash + trade_value - commission'
                   positions :=
                     if q' = 0 then del_pos p.positions ticker
                     else set_pos p.positions ticker
                       { pos with quantity := q', current_price := some price } }
        (p', Except.ok
          { prediction_id := prediction_id
            ticker := ticker
            action := action
            price := price
            quantity := quantity
            total_value := trade_value
            position_before := position_before
            position_after := pos_qty p'.positions ticker
            cash_before := cash_before
            cash_after := p'.cash
            realized_pnl := if action = TradingAction.SELL then realized_pnl else 0
            commission := commission' })

/-- Extract the payload of a successful call (for stating field facts). -/
def ok_value {α : Type} (r : Except String α) : Option α :=
  match r with
  | Except.ok a => some a
  | Except.error _ => none

/-- Extract the message of a failing call. -/
def error_value {α : Type} (r : Except String α) : Option String :=
  match r with
  | Except.ok _ => none
  | Except.error e => some e

/-- `PaperTradingEngine._determine_action` (paper_trading.py lines 145-179).
The probability thresholds `0.65` and `0.35` are literal constants in the
source; only `confidence_threshold`, `stop_loss` and `take_profit` come from
the config.  The `none` case of the inner match is unreachable when
`0 < current_position` (Python would raise `KeyError` there). -/
def determine_action (cfg : BacktestConfig) (p : Portfolio) (ticker : String)
    (pred : PredictionInput) : TradingAction :=
  let probability := pred.probability
  let confidence := pred.confidence.getD (5 / 10)
  let current_position := pos_qty p.positions ticker
  if confidence < cfg.confidence_threshold then TradingAction.HOLD
  else if 65 / 100 < probability ∧ current_position = 0 then TradingAction.BUY
  else if probability < 35 / 100 ∧ 0 < current_position then TradingAction.SELL
  else if 0 < current_position then
    match lookup_pos p.positions ticker with
    | none => TradingAction.HOLD
    | some pos =>
      let avg_price := pos.avg_price
      let current_price := pos.current_price.getD avg_price
      let pnl_pct := (current_price - avg_price) / avg_price
      if pnl_pct < -cfg.stop_loss then TradingAction.SELL
      else if cfg.take_profit < pnl_pct then TradingAction.SELL
      else TradingAction.HOLD
  else TradingAction.HOLD

/-- Python `int(q)` on a float: truncation toward zero. -/
def py_int (q : ℚ) : Int :=
  if 0 ≤ q then ⌊q⌋ else ⌈q⌉

/-- `PaperTradingEngine._calculate_quantity` (paper_trading.py lines 181-201). -/
def calculate_quantity (cfg : BacktestConfig) (p : Portfolio) (ticker : String)
    (price : ℚ) (action : TradingAction) : Int :=
  match action with
  | TradingAction.BUY =>
    let max_position_value := p.total_value * cfg.max_position_size
    let available_cash := p.cash * (95 / 100)
    let max_value := min max_position_value available_cash
    if max_value < cfg.min_trade_value then 0
    else py_int (max_value / price)
  | TradingAction.SELL => pos_qty p.positions ticker
  | TradingAction.HOLD => 0

/-- `PaperTradingEngine.process_prediction` (paper_trading.py lines 114-143).
The source contains no `try/except`: a `ValueError` raised by
`_execute_trade` propagates to the caller, which the `Except.error`
result records. -/
def process_prediction (cfg : BacktestConfig) (p : Portfolio) (ticker : String)
    (pred : PredictionInput) (current_price : ℚ) :
    Portfolio × Except String (Option PaperTrade) :=
  let action := determine_action cfg p ticker pred
  if action = TradingAction.HOLD then (p, Except.ok none)
  else
    let quantity := calculate_quantity cfg p ticker current_price action
    if quantity = 0 then (p, Except.ok none)
    else
      match execute_trade cfg p ticker action current_price quantity pred.id with
      | (p', Except.ok t) => (p', Except.ok (some t))
      | (p', Except.error e) => (p', Except.error e)

/-- `current_prices.get(ticker)` for `update_portfolio_values`. -/
def lookup_price (prices : List (String × ℚ)) (t : String) : Option ℚ :=
  (prices.find? (fun x => x.1 == t)).map (fun x => x.2)

/-- The per-position refresh loop of `update_portfolio_values`
(paper_trading.py lines 329-334). -/
def refresh_position (prices : List (String × ℚ)) (x : String × Position) :
    String × Position :=
  match lookup_price prices x.1 with
  | some pr =>
    (x.1, { x.2 with
              current_price := some pr
              unrealized_pnl := some ((pr - x.2.avg_price) * (x.2.quantity : ℚ)) })
  | none => x

/-- `positions_value` in `update_portfolio_values` (lines 337-340):
`sum(pos['quantity'] * pos.get('current_price', pos['avg_price']))`. -/
def positions_value (ps : List (String × Position)) : ℚ :=
  (ps.map (fun x => (x.2.quantity : ℚ) * (x.2.current_price.getD x.2.avg_price))).sum

/-- `PaperTradingEngine.update_portfolio_values` (paper_trading.py lines
326-349), minus the final `_save_portfolio_snapshot` DB write, which is
embedded separately below as a function of the snapshot history. -/
def update_portfolio_values (p : Portfolio) (prices : List (String × ℚ)) :
    Portfolio :=
  let ps := p.positions.map (refresh_position prices)
  let pv := positions_value ps
  let tv := p.cash + pv
  { p with positions := ps
           total_value := tv
           total_return := tv - p.initial_capital
           total_return_pct := (tv - p.initial_capital) / p.initial_capital * 100 }

/-- `SELECT MAX(total_value) FROM portfolio_history` — `none` models the SQL
`NULL` on an empty table. -/
def history_peak : List PortfolioSnapshot → Option ℚ
  | [] => none
  | s :: rest =>
    match history_peak rest with
    | none => some s.total_value
    | some m => some (max s.total_value m)

/-- `PaperTradingEngine._save_portfolio_snapshot` (paper_trading.py lines
351-390).  `history` is the `portfolio_history` table, most recent row first
(the source reads it `ORDER BY date DESC`).  `prev_value` falls back to
`initial_capital` on an empty table; `peak_value` falls back to the current
`total_value` when `MAX(total_value)` is `NULL` *or zero* (the Python
truthiness test `if row and row[0]`).  Both `daily_return` and `drawdown` are
multiplied by 100 before being stored. -/
def save_portfolio_snapshot (p : Portfolio) (history : List PortfolioSnapshot) :
    Portfolio × PortfolioSnapshot :=
  let prev_value : ℚ :=
    match history.head? with
    | some s => s.total_value
    | none => p.initial_capital
  let daily_return := (p.total_value - prev_value) / prev_value * 100
  let peak_value : ℚ :=
    match history_peak history with
    | none => p.total_value
    | some v => if v = 0 then p.total_value else v
  let drawdown := (p.total_value - peak_value) / peak_value * 100
  ({ p with max_drawdown := min p.max_drawdown drawdown },
   { cash := p.cash
     total_value := p.total_value
     daily_return := daily_return
     cumulative_return := p.total_return_pct
     drawdown := drawdown })

/-- SQL `AVG(...)`: `NULL` (here `none`) when no row matches. -/
def avg_of (l : List ℚ) : Option ℚ :=
  if l = [] then none else some (l.sum / (l.length : ℚ))

def type_error_msg : String := "TypeError"

/-- The `profit_factor` entry of `BacktestAnalyzer._analyze_trading`
(analyzer.py line 232):
`abs(avg_win / avg_loss) if avg_loss else 0`, where `avg_win`/`avg_loss` are
the SQL averages of the positive/negative `realized_pnl` of the period's
sell trades (`pnls` is that list of realized PnLs).  `avg_loss` falsy —
`NULL` or `0.0` — yields 0; `avg_win = NULL` with a truthy `avg_loss` would
raise a `TypeError` in Python (`abs(None / x)`). -/
def analyze_trading_profit_factor (pnls : List ℚ) : Except String ℚ :=
  let avg_win := avg_of (pnls.filter (fun x => 0 < x))
  let avg_loss := avg_of (pnls.filter (fun x => x < 0))
  match avg_loss with
  | none => Except.ok 0
  | some al =>
    if al = 0 then Except.ok 0
    else
      match avg_win with
      | none => Except.error type_error_msg
      | some aw => Except.ok |aw / al|

/-- Python `round(x, 2)`: round half to even at two decimals. -/
def py_round_half_even (x : ℚ) : Int :=
  let f := ⌊x⌋
  let r := x - (f : ℚ)
  if r < 1 / 2 then f
  else if 1 / 2 < r then f + 1
  else if f % 2 = 0 then f else f + 1

def py_round2 (x : ℚ) : ℚ :=
  ((py_round_half_even (x * 100) : ℚ)) / 100

/-- The `profit_factor` entry of
`EnhancedBacktester._calculate_trade_statistics`
(enhanced_backtesting.py line 462):
`round(sum(winning_trades) / abs(sum(losing_trades)), 2) if losing_trades
else 0`, over the list of per-trade profits. -/
def calculate_trade_statistics_profit_factor (profits : List ℚ) : ℚ :=
  let winning := profits.filter (fun x => 0 < x)
  let losing := profits.filter (fun x => x < 0)
  if losing = [] then 0 else py_round2 (winning.sum / |losing.sum|)

/-- Modelled from the spec (§4.6): `profit factor = Σwins / |Σlosses|`.
Stated only for comparison against the source's computations above. -/
def profit_factor_spec_formula (pnls : List ℚ) : ℚ :=
  (pnls.filter (fun x => 0 < x)).sum / |(pnls.filter (fun x => x < 0)).sum|

/-- Modelled from the spec (§4.2, Data Model §3 `BacktestConfig`): the spec's
SignalPolicy reads `probability_buy_threshold` and
`probability_sell_threshold` from the configuration, but the source
`BacktestConfig` (models.py lines 99-118) has no such fields.  This record
carries the spec's thresholds for the refinement comparison of claim C7. -/
structure SpecSignalConfig where
  probability_buy_threshold : ℚ
  probability_sell_threshold : ℚ
  confidence_threshold : ℚ

/-- Modelled from the spec (§4.2 rules 1-3): the decision the spec describes,
parameterised by the configured thresholds.  (Exit rules 4-5 need a held
position and are never reached in the comparisons below, which use
`current_position = 0`.) -/
def determine_action_spec (cfg : SpecSignalConfig) (current_position : Int)
    (probability confidence : ℚ) : TradingAction :=
  if confidence < cfg.confidence_threshold then TradingAction.HOLD
  else if cfg.probability_buy_threshold < probability ∧ current_position = 0 then
    TradingAction.BUY
  else if probability < cfg.probability_sell_threshold ∧ 0 < current_position then
    TradingAction.SELL
  else TradingAction.HOLD

/-- One request to `_execute_trade`, for stating properties of trade
sequences. -/
structure TradeRequest where
  ticker : String
  action : TradingAction
  price : ℚ
  quantity : Int
  prediction_id : Option Int := none

/-- Run a sequence of `_execute_trade` calls, keeping the engine state each
call leaves behind (unchanged on a failed call). -/
def apply_trades (cfg : BacktestConfig) (p : Portfolio)
    (reqs : List TradeRequest) : Portfolio :=
  reqs.foldl
    (fun q r =>
      (execute_trade cfg q r.ticker r.action r.price r.quantity r.prediction_id).1)
    p

/-- C1: starting from a fresh portfolio with the default config
(initial_capital 10,000,000, commission_rate 0.00015, tax_rate 0.0023), a BUY
of 100 shares at 50,000 leaves cash 4,999,250 and a position of 100 shares at
avg_price 50,000; the subsequent SELL of 100 shares at 55,000 carries total
commission 825 + 12,650 (commission plus tax), realized_pnl 486,525,
increases cash by exactly 5,486,525, and removes the position. -/
theorem buy_then_sell_scenario :
    let cfg : BacktestConfig := {}
    let p0 := init_portfolio cfg
    let r1 := execute_trade cfg p0 "A" TradingAction.BUY 50000 100 none
    let p1 := r1.1
    let r2 := execute_trade cfg p1 "A" TradingAction.SELL 55000 100 none
    p1.cash = 4999250 ∧
    pos_qty p1.positions "A" = 100 ∧
    (lookup_pos p1.positions "A").map Position.avg_price = some 50000 ∧
    (ok_value r2.2).map PaperTrade.commission = some (825 + 12650) ∧
    (ok_value r2.2).map PaperTrade.realized_pnl = some 486525 ∧
    r2.1.cash = p1.cash + 5486525 ∧
    lookup_pos r2.1.positions "A" = none := by
  norm_num [execute_trade, init_portfolio, pos_qty, lookup_pos, set_pos, del_pos,
    ok_value]
  simp

/-- C8: whenever the prediction's confidence (default 0.5 when absent) is
below `config.confidence_threshold`, `_determine_action` returns HOLD,
regardless of the probability and of any held position. -/
theorem confidence_gate_holds (cfg : BacktestConfig) (p : Portfolio)
    (t : String) (pred : PredictionInput)
    (h : pred.confidence.getD (5 / 10) < cfg.confidence_threshold) :
    determine_action cfg p t pred = TradingAction.HOLD := by
  simp [determine_action, h]

/-- Witness for C8 at the spec's Scenario 4: probability 0.7, confidence 0.5,
confidence_threshold 0.6 (the default) gives HOLD. -/
theorem confidence_gate_holds_witness :
    ((5 : ℚ) / 10 < 6 / 10) ∧
    determine_action {} (init_portfolio {}) "A"
      { probability := 7 / 10, confidence := some (5 / 10) } =
      TradingAction.HOLD :=
  ⟨by norm_num, confidence_gate_holds _ _ _ _ (by norm_num)⟩

/-- C2 counterexample: with the default config, selling 1 share at 50,001
against an avg_price of 50,000 has pre-tax PnL `(price - avg_price)*qty = 1
> 0`, yet no tax is charged: the trade's commission is the bare
`price*qty*commission_rate` and cash grows by proceeds minus that commission
only — the source applies tax only when the PnL *net of commission* is
positive. -/
theorem sell_tax_gross_pnl_counterexample :
    let p : Portfolio :=
      { cash := 0
        positions := [("A", { quantity := 1, avg_price := 50000, total_cost := 50000,
                              current_price := some 50000 })]
        total_value := 50000
        initial_capital := 50000 }
    let r := execute_trade {} p "A" TradingAction.SELL 50001 1 none
    (0 : ℚ) < (50001 - 50000) * 1 ∧
    (ok_value r.2).map PaperTrade.commission = some (50001 * (15 / 100000)) ∧
    (50001 : ℚ) * (15 / 100000) ≠ 50001 * (15 / 100000) + 50001 * (23 / 10000) ∧
    r.1.cash = 0 + 50001 - 50001 * (15 / 100000) := by
  norm_num [execute_trade, pos_qty, lookup_pos, set_pos, del_pos, ok_value]
  simp

/-- C2 amended: on every executable SELL, the securities tax
`price*quantity*tax_rate` is deducted exactly when
`(price - avg_price)*quantity - commission` (the realized PnL net of
commission) is strictly positive; otherwise only the commission is
deducted. -/
theorem sell_tax_on_net_gain_only (cfg : BacktestConfig) (p : Portfolio)
    (t : String) (price : ℚ) (qty : Int) (pid : Option Int) (pos : Position)
    (hpos : lookup_pos p.positions t = some pos) (hq : qty ≤ pos.quantity) :
    let tv := price * (qty : ℚ)
    let comm := tv * cfg.commission_rate
    let pnl0 := (price - pos.avg_price) * (qty : ℚ) - comm
    let tax := if 0 < pnl0 then tv * cfg.tax_rate else 0
    let r := execute_trade cfg p t TradingAction.SELL price qty pid
    (ok_value r.2).map PaperTrade.commission = some (comm + tax) ∧
    (ok_value r.2).map PaperTrade.realized_pnl = some (pnl0 - tax) ∧
    r.1.cash = p.cash + tv - (comm + tax) := by
  simp [execute_trade, pos_qty, hpos, not_lt.mpr hq, ok_value]

/-- Witness for the amended C2 at a gaining SELL: 1 share bought at 50,000
sold at 60,000 pays commission 9 plus tax 138, leaving cash 59,853. -/
theorem sell_tax_on_net_gain_only_witness :
    let p : Portfolio :=
      { cash := 0
        positions := [("A", { quantity := 1, avg_price := 50000, total_cost := 50000,
                              current_price := some 50000 })]
        total_value := 50000
        initial_capital := 50000 }
    (execute_trade {} p "A" TradingAction.SELL 60000 1 none).1.cash = 59853 := by
  intro p
  have h := sell_tax_on_net_gain_only {} p "A" 60000 1 none
    { quantity := 1, avg_price := 50000, total_cost := 50000, current_price := some 50000 }
    (by simp [lookup_pos]) (by norm_num)
  rw [h.2.2]
  norm_num

/-- C7 counterexample: at probability 0.7 / confidence 0.9 with no position,
`_determine_action` returns BUY even though a configured buy threshold of 0.8
is not met (0.7 is not above 0.8): the source compares against the literal
0.65, not a configured threshold, and the spec-modelled decision with
`probability_buy_threshold = 0.8` returns HOLD at the same input. -/
theorem determine_action_ignores_configured_thresholds :
    determine_action {} (init_portfolio {}) "A"
      { probability := 7 / 10, confidence := some (9 / 10) } = TradingAction.BUY ∧
    determine_action_spec
      { probability_buy_threshold := 8 / 10
        probability_sell_threshold := 35 / 100
        confidence_threshold := 6 / 10 } 0 (7 / 10) (9 / 10) = TradingAction.HOLD ∧
    ¬((8 : ℚ) / 10 < 7 / 10) ∧
    TradingAction.BUY ≠ TradingAction.HOLD := by
  refine ⟨?_, ?_, by norm_num, by simp⟩
  · norm_num [determine_action, init_portfolio, pos_qty, lookup_pos]
  · norm_num [determine_action_spec]

/-- C7 amended: the entry/exit probability cutoffs of `_determine_action` are
the fixed literals 0.65 and 0.35 (the source `BacktestConfig` has no
probability-threshold fields); only the confidence gate is configured.  BUY
is returned exactly when the confidence gate passes, probability > 0.65 and
no position is held; and whenever the gate passes, probability < 0.35 and a
position is held, the momentum-exit SELL is returned. -/
theorem determine_action_fixed_thresholds (cfg : BacktestConfig) (p : Portfolio)
    (t : String) (pred : PredictionInput) :
    (determine_action cfg p t pred = TradingAction.BUY ↔
      cfg.confidence_threshold ≤ pred.confidence.getD (5 / 10) ∧
      65 / 100 < pred.probability ∧ pos_qty p.positions t = 0) ∧
    (cfg.confidence_threshold ≤ pred.confidence.getD (5 / 10) →
      pred.probability < 35 / 100 → 0 < pos_qty p.positions t →
      determine_action cfg p t pred = TradingAction.SELL) := by
  by_cases h1 : pred.confidence.getD (5 / 10) < cfg.confidence_threshold
  · simp [determine_action, h1, not_le.mpr h1]
  · have h1' := not_lt.mp h1
    by_cases h2 : 65 / 100 < pred.probability ∧ pos_qty p.positions t = 0
    · constructor
      · simp [determine_action, h1, h2, h1']
      · intro _ hps hq
        exact absurd h2.2 (by omega)
    · by_cases h3 : pred.probability < 35 / 100 ∧ 0 < pos_qty p.positions t
      · constructor
        · simp only [determine_action, if_neg h1, if_pos h3, if_neg h2]
          constructor
          · intro h; exact absurd h (by simp)
          · rintro ⟨-, hb, hq0⟩; exact absurd ⟨hb, hq0⟩ h2
        · intro _ _ _
          simp only [determine_action, if_neg h1, if_pos h3, if_neg h2]
      · constructor
        · simp only [determine_action, if_neg h1, if_neg h2, if_neg h3]
          constructor
          · intro h
            by_cases h4 : 0 < pos_qty p.positions t
            · rw [if_pos h4] at h
              rcases hl : lookup_pos p.positions t with _ | pos
              · rw [hl] at h; exact absurd h (by simp)
              · rw [hl] at h
                revert h
                dsimp only
                split_ifs <;> simp
            · rw [if_neg h4] at h; exact absurd h (by simp)
          · rintro ⟨-, hb, hq0⟩; exact absurd ⟨hb, hq0⟩ h2
        · intro ha hb hc
          exact absurd ⟨hb, hc⟩ h3

/-- Witness for the amended C7: probability 0.7 > 0.65 with confidence 0.9
and no position yields BUY under the default config. -/
theorem determine_action_fixed_thresholds_witness :
    determine_action {} (init_portfolio {}) "A"
      { probability := 7 / 10, confidence := some (9 / 10) } = TradingAction.BUY :=
  (determine_action_fixed_thresholds {} (init_portfolio {}) "A"
      { probability := 7 / 10, confidence := some (9 / 10) }).1.mpr
    ⟨by norm_num, by norm_num, by norm_num [init_portfolio, pos_qty, lookup_pos]⟩

/-- C10: `_execute_trade` is atomic with respect to errors — whenever it
fails (insufficient cash on BUY, insufficient shares — or a missing position
— on the SELL path), the portfolio returned is exactly the input portfolio:
both sufficiency checks fire before any mutation. -/
theorem execute_trade_atomic_on_failure (cfg : BacktestConfig) (p : Portfolio)
    (t : String) (a : TradingAction) (price : ℚ) (qty : Int) (pid : Option Int)
    (e : String)
    (h : (execute_trade cfg p t a price qty pid).2 = Except.error e) :
    (execute_trade cfg p t a price qty pid).1 = p := by
  by_cases h1 : a = TradingAction.BUY
  · by_cases h2 : p.cash < price * (qty : ℚ) + price * (qty : ℚ) * cfg.commission_rate
    · simp [execute_trade, h1, h2]
    · simp [execute_trade, h1, h2] at h
  · by_cases h2 : pos_qty p.positions t < qty
    · simp [execute_trade, h1, h2]
    · rcases hl : lookup_pos p.positions t with _ | pos
      · simp [execute_trade, h1, h2, hl]
      · simp [execute_trade, h1, h2, hl] at h

/-- Witness for C10: a BUY of 1,000,000 shares at 50,000 against 10,000,000
cash fails with insufficient cash and leaves the fresh portfolio untouched. -/
theorem execute_trade_atomic_on_failure_witness :
    (execute_trade {} (init_portfolio {}) "A" TradingAction.BUY 50000 1000000 none).2
        = Except.error insufficient_cash_msg ∧
    (execute_trade {} (init_portfolio {}) "A" TradingAction.BUY 50000 1000000 none).1
        = init_portfolio {} :=
  ⟨by norm_num [execute_trade, init_portfolio, pos_qty, lookup_pos],
   execute_trade_atomic_on_failure {} (init_portfolio {}) "A" TradingAction.BUY
     50000 1000000 none insufficient_cash_msg
     (by norm_num [execute_trade, init_portfolio, pos_qty, lookup_pos])⟩

/-- A single `_execute_trade` call keeps cash non-negative: a BUY only
succeeds when the full cost fits in cash, and a SELL (with non-negative price
and quantity, and fee rates summing to at most 1) only adds money. -/
lemma execute_trade_cash_nonneg (cfg : BacktestConfig)
    (hr : 0 ≤ cfg.commission_rate) (ht : 0 ≤ cfg.tax_rate)
    (hrt : cfg.commission_rate + cfg.tax_rate ≤ 1)
    (p : Portfolio) (hp : 0 ≤ p.cash) (t : String) (a : TradingAction)
    (price : ℚ) (qty : Int) (pid : Option Int)
    (hpr : 0 ≤ price) (hq : 0 ≤ qty) :
    0 ≤ (execute_trade cfg p t a price qty pid).1.cash := by
  have htv : 0 ≤ price * (qty : ℚ) := mul_nonneg hpr (by exact_mod_cast hq)
  by_cases h1 : a = TradingAction.BUY
  · by_cases h2 : p.cash < price * (qty : ℚ) + price * (qty : ℚ) * cfg.commission_rate
    · simp [execute_trade, h1, h2, hp]
    · simp only [execute_trade, if_pos h1, if_neg h2]
      have h2' := not_lt.mp h2
      linarith
  · by_cases h2 : pos_qty p.positions t < qty
    · simp [execute_trade, h1, h2, hp]
    · rcases hl : lookup_pos p.positions t with _ | pos
      · simp [execute_trade, h1, h2, hl, hp]
      · simp only [execute_trade, if_neg h1, if_neg h2, hl]
        by_cases h3 :
            0 < (price - pos.avg_price) * (qty : ℚ)
              - price * (qty : ℚ) * cfg.commission_rate
        · simp only [if_pos h3]
          nlinarith [mul_nonneg htv
            (by linarith : (0 : ℚ) ≤ 1 - cfg.commission_rate - cfg.tax_rate)]
        · simp only [if_neg h3]
          nlinarith [mul_nonneg htv (by linarith : (0 : ℚ) ≤ 1 - cfg.commission_rate)]

/-- Cash non-negativity extends to arbitrary sequences of execute calls. -/
lemma apply_trades_cash_nonneg (cfg : BacktestConfig)
    (hr : 0 ≤ cfg.commission_rate) (ht : 0 ≤ cfg.tax_rate)
    (hrt : cfg.commission_rate + cfg.tax_rate ≤ 1)
    (reqs : List TradeRequest) (p : Portfolio)
    (hreqs : ∀ r ∈ reqs, 0 ≤ r.price ∧ 0 ≤ r.quantity) (hp : 0 ≤ p.cash) :
    0 ≤ (apply_trades cfg p reqs).cash := by
  induction reqs generalizing p with
  | nil => simpa [apply_trades] using hp
  | cons r rs ih =>
    have hr0 := hreqs r (by simp)
    simp only [apply_trades, List.foldl_cons]
    exact ih _ (fun x hx => hreqs x (List.mem_cons_of_mem r hx))
      (execute_trade_cash_nonneg cfg hr ht hrt p hp r.ticker r.action r.price
        r.quantity r.prediction_id hr0.1 hr0.2)

/-- C3: with non-negative fee rates summing to at most 1 (true of the
defaults 0.00015 and 0.0023) — (1) cash stays non-negative across every
sequence of executed trades with non-negative prices and quantities; (2) a
BUY whose total cost `price*quantity*(1+commission_rate)` exceeds cash is
rejected with the insufficient-cash error and the portfolio unchanged; (3) a
BUY whose total cost fits in cash succeeds, with the requested quantity —
never a clamped one. -/
theorem buy_checked_cash_invariant (cfg : BacktestConfig)
    (hr : 0 ≤ cfg.commission_rate) (ht : 0 ≤ cfg.tax_rate)
    (hrt : cfg.commission_rate + cfg.tax_rate ≤ 1) :
    (∀ (reqs : List TradeRequest) (p : Portfolio),
        (∀ r ∈ reqs, 0 ≤ r.price ∧ 0 ≤ r.quantity) → 0 ≤ p.cash →
        0 ≤ (apply_trades cfg p reqs).cash) ∧
    (∀ (p : Portfolio) (t : String) (price : ℚ) (qty : Int) (pid : Option Int),
        p.cash < price * (qty : ℚ) * (1 + cfg.commission_rate) →
        execute_trade cfg p t TradingAction.BUY price qty pid =
          (p, Except.error insufficient_cash_msg)) ∧
    (∀ (p : Portfolio) (t : String) (price : ℚ) (qty : Int) (pid : Option Int),
        price * (qty : ℚ) * (1 + cfg.commission_rate) ≤ p.cash →
        ∃ tr, (execute_trade cfg p t TradingAction.BUY price qty pid).2 =
            Except.ok tr ∧ tr.quantity = qty) := by
  refine ⟨fun reqs p h hp => apply_trades_cash_nonneg cfg hr ht hrt reqs p h hp,
    fun p t price qty pid h => ?_, fun p t price qty pid h => ?_⟩
  · have h' : p.cash < price * (qty : ℚ) + price * (qty : ℚ) * cfg.commission_rate := by
      nlinarith [h]
    simp [execute_trade, h']
  · have h' : ¬ p.cash < price * (qty : ℚ) + price * (qty : ℚ) * cfg.commission_rate := by
      push_neg
      nlinarith [h]
    simp only [execute_trade, if_pos rfl, if_neg h']
    exact ⟨_, rfl, rfl⟩

/-- Witness for C3: the BUY of the C1 scenario leaves non-negative cash
under the default rates. -/
theorem buy_checked_cash_invariant_witness :
    0 ≤ (apply_trades {} (init_portfolio {})
      [{ ticker := "A", action := TradingAction.BUY, price := 50000, quantity := 100 }]).cash :=
  (buy_checked_cash_invariant {} (by norm_num) (by norm_num) (by norm_num)).1
    _ _ (by intro r hrm; simp at hrm; subst hrm; constructor <;> norm_num)
    (by norm_num [init_portfolio])

/-- Refreshing positions and then valuing them prices each position at the
supplied market price when its ticker is in the map, else at its previous
current price (avg_price when never set). -/
lemma positions_value_refresh (prices : List (String × ℚ))
    (ps : List (String × Position)) :
    positions_value (ps.map (refresh_position prices)) =
      (ps.map (fun x => (x.2.quantity : ℚ) *
        ((lookup_price prices x.1).getD (x.2.current_price.getD x.2.avg_price)))).sum := by
  induction ps with
  | nil => rfl
  | cons x xs ih =>
    rcases hl : lookup_price prices x.1 with _ | pr <;>
      simp [positions_value, refresh_position, hl] at ih ⊢ <;> rw [ih]

/-- C4: after every `update_portfolio_values(current_prices)` call,
`total_value` equals cash plus the sum over held positions of quantity times
that position's current price — exactly (hence within the claimed 1e-6), and
with each position priced from the supplied map when present. -/
theorem total_value_equals_cash_plus_positions (p : Portfolio)
    (prices : List (String × ℚ)) :
    let u := update_portfolio_values p prices
    u.total_value = u.cash + positions_value u.positions ∧
    |u.total_value - (u.cash + positions_value u.positions)| ≤ 1 / 1000000 ∧
    u.total_value = p.cash +
      (p.positions.map (fun x => (x.2.quantity : ℚ) *
        ((lookup_price prices x.1).getD (x.2.current_price.getD x.2.avg_price)))).sum := by
  refine ⟨?_, ?_, ?_⟩
  · simp [update_portfolio_values]
  · simp [update_portfolio_values]
  · simp [update_portfolio_values, positions_value_refresh]

/-- `history_peak` really is the maximum of the stored total values. -/
lemma history_peak_is_max (hist : List PortfolioSnapshot) (m : ℚ)
    (h : history_peak hist = some m) :
    (∃ s ∈ hist, s.total_value = m) ∧ ∀ s ∈ hist, s.total_value ≤ m := by
  induction hist generalizing m with
  | nil => simp [history_peak] at h
  | cons s rest ih =>
    rcases hp : history_peak rest with _ | m2
    · simp only [history_peak, hp] at h
      have hrest : rest = [] := by
        cases rest with
        | nil => rfl
        | cons y ys =>
          rcases hy : history_peak ys with _ | mm <;>
            simp [history_peak, hy] at hp
      subst hrest
      simp at h
      subst h
      simp
    · simp only [history_peak, hp] at h
      simp at h
      subst h
      obtain ⟨⟨s0, hs0, hs0v⟩, hall⟩ := ih m2 hp
      constructor
      · rcases le_total s.total_value m2 with h' | h'
        · exact ⟨s0, by simp [hs0], by rw [hs0v, max_eq_right h']⟩
        · exact ⟨s, by simp, (max_eq_left h').symm ▸ rfl⟩
      · intro x hx
        rcases List.mem_cons.mp hx with rfl | hx'
        · exact le_max_left _ _
        · exact le_trans (hall x hx') (le_max_right _ _)

/-- C5 counterexample: with previous snapshot total 100 and new total 90,
the stored `daily_return` and `drawdown` are -10 — the fractional values
times 100 — while the claim's fractional value is -1/10: the engine stores
percent units, not fractions. -/
theorem snapshot_stores_percent_counterexample :
    let p : Portfolio := { cash := 90, positions := [], total_value := 90,
                           initial_capital := 100 }
    let hist : List PortfolioSnapshot :=
      [{ cash := 100, total_value := 100, daily_return := 0,
         cumulative_return := 0, drawdown := 0 }]
    let s := (save_portfolio_snapshot p hist).2
    s.daily_return = -10 ∧ s.drawdown = -10 ∧
    ((90 : ℚ) - 100) / 100 = -(1 / 10) ∧ (-10 : ℚ) ≠ -(1 / 10) := by
  norm_num [save_portfolio_snapshot, history_peak]

/-- C5 amended: each stored snapshot records
`daily_return = (total_value - prev_total_value)/prev_total_value * 100` and
`drawdown = (total_value - peak)/peak * 100`, i.e. percent units are applied
at storage time (the analyzer divides the stored values by 100 when it reads
them back); the peak is the maximum stored total value and the portfolio's
running `max_drawdown` is the minimum of its old value and the new
drawdown. -/
theorem snapshot_formulas (p : Portfolio) (hist : List PortfolioSnapshot) :
    let r := save_portfolio_snapshot p hist
    (r.2.cash = p.cash ∧ r.2.total_value = p.total_value ∧
     r.2.cumulative_return = p.total_return_pct) ∧
    (∀ s rest, hist = s :: rest →
      r.2.daily_return = (p.total_value - s.total_value) / s.total_value * 100) ∧
    (hist = [] →
      r.2.daily_return = (p.total_value - p.initial_capital) / p.initial_capital * 100) ∧
    (∀ m, history_peak hist = some m → m ≠ 0 →
      r.2.drawdown = (p.total_value - m) / m * 100 ∧
      (∃ s ∈ hist, s.total_value = m) ∧ ∀ s ∈ hist, s.total_value ≤ m) ∧
    r.1.max_drawdown = min p.max_drawdown r.2.drawdown := by
  refine ⟨⟨rfl, rfl, rfl⟩, ?_, ?_, ?_, rfl⟩
  · rintro s rest rfl
    simp [save_portfolio_snapshot]
  · rintro rfl
    simp [save_portfolio_snapshot]
  · intro m hm hm0
    refine ⟨?_, history_peak_is_max hist m hm⟩
    simp [save_portfolio_snapshot, hm, hm0]

/-- Witness for the amended C5 at the counterexample's input. -/
theorem snapshot_formulas_witness :
    let p : Portfolio := { cash := 90, positions := [], total_value := 90,
                           initial_capital := 100 }
    let hist : List PortfolioSnapshot :=
      [{ cash := 100, total_value := 100, daily_return := 0,
         cumulative_return := 0, drawdown := 0 }]
    (save_portfolio_snapshot p hist).2.daily_return = (90 - 100) / 100 * 100 := by
  intro p hist
  exact (snapshot_formulas p hist).2.1 _ _ rfl

/-- A non-empty list of strictly negative rationals has a strictly negative
sum. -/
lemma sum_neg_of_all_neg (l : List ℚ) (h0 : l ≠ []) (h : ∀ x ∈ l, x < 0) :
    l.sum < 0 := by
  induction l with
  | nil => simp at h0
  | cons x xs ih =>
    have hx : x < 0 := h x (by simp)
    rcases xs with _ | ⟨y, ys⟩
    · simpa using hx
    · have := ih (by simp) (fun z hz => h z (List.mem_cons_of_mem x hz))
      simp only [List.sum_cons] at this ⊢
      linarith

/-- C6 counterexample: on sell-trade PnLs `[10, -5, -5]` the report's
profit factor is `|avg_win / avg_loss| = |10 / (-5)| = 2`, while the claimed
`Σwins / |Σlosses|` is `10 / 10 = 1` (which is what
`enhanced_backtesting._calculate_trade_statistics` computes). -/
theorem profit_factor_formula_counterexample :
    analyze_trading_profit_factor [10, -5, -5] = Except.ok 2 ∧
    profit_factor_spec_formula [10, -5, -5] = 1 ∧
    calculate_trade_statistics_profit_factor [10, -5, -5] = 1 ∧
    (2 : ℚ) ≠ 1 := by
  refine ⟨?_, ?_, ?_, by norm_num⟩
  · norm_num [analyze_trading_profit_factor, avg_of, List.filter]
    simp
    norm_num
  · norm_num [profit_factor_spec_formula, List.filter]
  · norm_num [calculate_trade_statistics_profit_factor, py_round2,
      py_round_half_even, List.filter]
    simp

/-- C6 amended: whenever the period has both winning and losing sell trades,
`generate_report`'s profit factor is the absolute ratio of the average
winning PnL to the average losing PnL — not the ratio of sums. -/
theorem analyzer_profit_factor_is_avg_ratio (pnls : List ℚ)
    (hw : pnls.filter (fun x => 0 < x) ≠ [])
    (hl : pnls.filter (fun x => x < 0) ≠ []) :
    analyze_trading_profit_factor pnls =
      Except.ok |((pnls.filter (fun x => 0 < x)).sum /
          ((pnls.filter (fun x => 0 < x)).length : ℚ)) /
        ((pnls.filter (fun x => x < 0)).sum /
          ((pnls.filter (fun x => x < 0)).length : ℚ))| := by
  have hneg : (pnls.filter (fun x => x < 0)).sum < 0 :=
    sum_neg_of_all_neg _ hl (fun x hx => by
      simpa using (List.mem_filter.mp hx).2)
  have hlen : (0 : ℚ) < ((pnls.filter (fun x => x < 0)).length : ℚ) := by
    exact_mod_cast List.length_pos.mpr hl
  have havg : (pnls.filter (fun x => x < 0)).sum /
      ((pnls.filter (fun x => x < 0)).length : ℚ) < 0 :=
    div_neg_of_neg_of_pos hneg hlen
  simp only [analyze_trading_profit_factor, avg_of, if_neg hw, if_neg hl]
  rw [if_neg (ne_of_lt havg)]

/-- Witness for the amended C6 at the counterexample's input. -/
theorem analyzer_profit_factor_is_avg_ratio_witness :
    analyze_trading_profit_factor [10, -5, -5] = Except.ok 2 := by
  have h := analyzer_profit_factor_is_avg_ratio [10, -5, -5]
    (by decide) (by decide)
  rw [h]
  norm_num [List.filter]

/-- C9 counterexample: `process_prediction` has no `try/except`.  With
commission_rate 0.1, initial capital 1,000, max_position_size 1 and
min_trade_value 100, a strong-buy prediction at price 950 sizes a 1-share BUY
(cost 950 + 95 = 1,045 > 1,000 cash); `_execute_trade` raises and the
error propagates out of `process_prediction` — it is not a logged no-op. -/
theorem process_prediction_propagates_error :
    let cfg : BacktestConfig :=
      { initial_capital := 1000, commission_rate := 1 / 10,
        max_position_size := 1, min_trade_value := 100 }
    let p := init_portfolio cfg
    let r := process_prediction cfg p "A"
      { probability := 7 / 10, confidence := some (9 / 10) } 950
    error_value r.2 = some insufficient_cash_msg ∧ r.1 = p := by
  norm_num [process_prediction, determine_action, calculate_quantity, py_int,
    execute_trade, init_portfolio, pos_qty, lookup_pos, error_value]
  simp

/-- C9 amended: batches survive not because failures are caught (they are
not), but because with any configuration satisfying
`0.95 * (1 + commission_rate) ≤ 1` (amply true of the default 0.00015),
non-negative `min_trade_value`, positive price and non-negative cash, the
sizing logic only ever proposes executable trades: a BUY is capped at 95% of
cash and a SELL sells exactly the held quantity, so `process_prediction`
never returns a trade-level error. -/
theorem process_prediction_never_fails (cfg : BacktestConfig) (p : Portfolio)
    (t : String) (pred : PredictionInput) (price : ℚ)
    (hpr : 0 < price) (hc : 0 ≤ p.cash)
    (hr : 0 ≤ cfg.commission_rate) (hm : 0 ≤ cfg.min_trade_value)
    (hsafe : (95 / 100) * (1 + cfg.commission_rate) ≤ 1) :
    ∃ o, (process_prediction cfg p t pred price).2 = Except.ok o := by
  cases hact : determine_action cfg p t pred with
  | HOLD => exact ⟨none, by simp [process_prediction, hact]⟩
  | BUY =>
    by_cases hq : calculate_quantity cfg p t price TradingAction.BUY = 0
    · exact ⟨none, by simp [process_prediction, hact, hq]⟩
    · set mv := min (p.total_value * cfg.max_position_size) (p.cash * (95 / 100))
        with hmv
      have hmv_le : mv ≤ p.cash * (95 / 100) := min_le_right _ _
      have hnotlt : ¬ mv < cfg.min_trade_value := by
        intro hcon
        exact hq (by simp [calculate_quantity, ← hmv, hcon])
      have hmv0 : 0 ≤ mv := le_trans hm (not_lt.mp hnotlt)
      have hdiv0 : (0 : ℚ) ≤ mv / price := div_nonneg hmv0 hpr.le
      have hq_eq : calculate_quantity cfg p t price TradingAction.BUY
          = ⌊mv / price⌋ := by
        simp [calculate_quantity, ← hmv, hnotlt, py_int, hdiv0]
      have hqp : (⌊mv / price⌋ : ℚ) * price ≤ mv :=
        (le_div_iff₀ hpr).mp (Int.floor_le _)
      have hcost : (⌊mv / price⌋ : ℚ) * price * (1 + cfg.commission_rate) ≤ p.cash := by
        calc (⌊mv / price⌋ : ℚ) * price * (1 + cfg.commission_rate)
            ≤ mv * (1 + cfg.commission_rate) :=
              mul_le_mul_of_nonneg_right hqp (by linarith)
          _ ≤ (p.cash * (95 / 100)) * (1 + cfg.commission_rate) :=
              mul_le_mul_of_nonneg_right hmv_le (by linarith)
          _ = p.cash * ((95 / 100) * (1 + cfg.commission_rate)) := by ring
          _ ≤ p.cash * 1 := mul_le_mul_of_nonneg_left hsafe hc
          _ = p.cash := mul_one _
      have hnotcash : ¬ p.cash <
          price * ((⌊mv / price⌋ : ℤ) : ℚ)
            + price * ((⌊mv / price⌋ : ℤ) : ℚ) * cfg.commission_rate := by
        push_neg
        nlinarith [hcost]
      simp only [process_prediction, hact, hq_eq]
      rw [if_neg (by simp : ¬ TradingAction.BUY = TradingAction.HOLD)]
      rw [if_neg (hq_eq ▸ hq)]
      simp only [execute_trade, if_pos rfl, if_neg hnotcash]
      exact ⟨_, rfl⟩
  | SELL =>
    by_cases hq : calculate_quantity cfg p t price TradingAction.SELL = 0
    · exact ⟨none, by simp [process_prediction, hact, hq]⟩
    · have hq_eq : calculate_quantity cfg p t price TradingAction.SELL
          = pos_qty p.positions t := by simp [calculate_quantity]
      rcases hl : lookup_pos p.positions t with _ | pos
      · exact absurd (by simp [calculate_quantity, pos_qty, hl]) hq
      · have hql : ¬ pos_qty p.positions t < pos_qty p.positions t := lt_irrefl _
        simp only [process_prediction, hact, hq_eq]
        rw [if_neg (by simp : ¬ TradingAction.SELL = TradingAction.HOLD)]
        rw [if_neg (hq_eq ▸ hq)]
        simp only [execute_trade, if_neg (by simp : ¬ TradingAction.SELL = TradingAction.BUY),
          if_neg hql, hl]
        exact ⟨_, rfl⟩

/-- Witness for the amended C9: under the default config a strong-buy
prediction at price 50,000 is processed without error. -/
theorem process_prediction_never_fails_witness :
    ∃ o, (process_prediction {} (init_portfolio {}) "A"
      { probability := 7 / 10, confidence := some (9 / 10) } 50000).2 =
        Except.ok o :=
  process_prediction_never_fails {} (init_portfolio {}) "A"
    { probability := 7 / 10, confidence := some (9 / 10) } 50000
    (by norm_num) (by norm_num [init_portfolio]) (by norm_num) (by norm_num)
    (by norm_num)
